import Mathlib

/-!
Verification of the AI-Leearn education server (src/server/routes.ts,
src/server/storage.ts, src/shared/schema.ts) against its natural-language
specification.  The TypeScript code is shallowly embedded: the in-memory
store (MemStorage) becomes explicit state passing over lists that model
JS Maps in insertion order; the generative-AI call is an explicit outcome
parameter (the model either throws or returns a text); JSON.parse of an
extracted substring is a function parameter returning Option (none models
a thrown parse error or failed shape validation), while the regex
extraction of the first brace-balanced substring is modelled exactly.
-/

namespace AILearn

/-! ## Data model (src/shared/schema.ts)

Timestamps (createdAt/updatedAt) are modelled as Nat ticks supplied by the
caller; ids are Nat, produced by the auto-increment counters of MemStorage. -/

/-- EvaluationResult (schema.ts): correctness is a JS number; modelled as Int
because the server never clamps or validates the numeric range. -/
structure EvaluationResult where
  correctness : Int
  feedback : String
  strengths : List String
  weaknesses : List String
deriving DecidableEq, Repr

/-- BatchEvaluationResult (schema.ts). -/
structure BatchEvaluationResult where
  totalScore : Int
  feedback : String
  strengths : List String
  weaknesses : List String
  recommendedAreas : List String
deriving DecidableEq, Repr

/-- A persisted Answer row (schema.ts answers table).  The batchEvaluation
field is not a column of the table; at runtime it is an extra object key
that storage.createAnswer copies when present, so it is modelled as an
Option field. -/
structure Answer where
  id : Nat
  questionId : Nat
  userAnswer : String
  evaluation : EvaluationResult
  batchEvaluation : Option BatchEvaluationResult
  createdAt : Nat
deriving DecidableEq, Repr

/-- A persisted Question row (schema.ts questions table). -/
structure Question where
  id : Nat
  sessionId : Nat
  question : String
  difficulty : String
  createdAt : Nat
deriving DecidableEq, Repr

/-- A persisted Session row (schema.ts sessions table); timestamps omitted,
no claim depends on them. -/
structure Session where
  id : Nat
  userId : Nat
  topic : String
  stage : String
deriving DecidableEq, Repr

/-- QuestionWithAnswer (schema.ts): TS extends Question with an optional
answer via object spread; modelled as a nested pair, so the TS field access
qa.id reads here as qa.question.id. -/
structure QuestionWithAnswer where
  question : Question
  answer : Option Answer
deriving DecidableEq, Repr

/-- The runtime argument object of storage.createAnswer.  The TS type
InsertAnswer has no batchEvaluation key, but the runtime object may carry
one (routes.ts passes it); hence the Option field. -/
structure InsertAnswer where
  questionId : Nat
  userAnswer : String
  evaluation : EvaluationResult
  batchEvaluation : Option BatchEvaluationResult
deriving DecidableEq, Repr

/-- The validated argument of storage.createQuestion. -/
structure InsertQuestion where
  sessionId : Nat
  question : String
  difficulty : String
deriving DecidableEq, Repr

/-- insertAnswerSchema (schema.ts) picks exactly questionId, userAnswer and
evaluation from the answers table; a zod object schema strips unrecognised
keys on parse, so any batchEvaluation key of the input object is removed.
The three picked fields are a number, a string and a json column, which the
typed model always satisfies, so parse cannot throw here. -/
def insertAnswerSchemaParse (raw : InsertAnswer) : InsertAnswer :=
  { raw with batchEvaluation := none }

/-! ## MemStorage (src/server/storage.ts)

JS Maps iterate in insertion order; each Map is modelled as a list with new
entries appended at the end and in-place updates keeping the position, so
that Array.from(map.values()).find matches List.find?. -/

/-- The MemStorage state restricted to what the claims touch. -/
structure Store where
  sessions : List Session
  questions : List Question
  answers : List Answer
  nextQuestionId : Nat
  nextAnswerId : Nat
deriving DecidableEq, Repr

/-- MemStorage.getSession. -/
def getSession (s : Store) (id : Nat) : Option Session :=
  s.sessions.find? (fun x => x.id == id)

/-- MemStorage.getQuestion. -/
def getQuestion (s : Store) (id : Nat) : Option Question :=
  s.questions.find? (fun q => q.id == id)

/-- MemStorage.getSessionQuestions: filter of the questions map values. -/
def getSessionQuestions (s : Store) (sessionId : Nat) : List Question :=
  s.questions.filter (fun q => q.sessionId == sessionId)

/-- MemStorage.getQuestionAnswer: first answer whose questionId matches. -/
def getQuestionAnswer (s : Store) (questionId : Nat) : Option Answer :=
  s.answers.find? (fun a => a.questionId == questionId)

/-- MemStorage.getSessionQuestionsWithAnswers. -/
def getSessionQuestionsWithAnswers (s : Store) (sessionId : Nat) : List QuestionWithAnswer :=
  (getSessionQuestions s sessionId).map (fun q => ⟨q, getQuestionAnswer s q.id⟩)

/-- MemStorage.createQuestion: appends with the next auto-increment id. -/
def createQuestion (s : Store) (now : Nat) (data : InsertQuestion) : Question × Store :=
  let q : Question :=
    { id := s.nextQuestionId
      sessionId := data.sessionId
      question := data.question
      difficulty := data.difficulty
      createdAt := now }
  (q, { s with questions := s.questions ++ [q], nextQuestionId := s.nextQuestionId + 1 })

/-- MemStorage.createAnswer (storage.ts lines 150-177): the id counter is
advanced unconditionally; if an answer for the questionId already exists it
is overwritten in place (userAnswer and evaluation replaced, and the
batchEvaluation key copied only when present on the input), otherwise a new
answer is appended. -/
def createAnswer (s : Store) (now : Nat) (answer : InsertAnswer) : Answer × Store :=
  match getQuestionAnswer s answer.questionId with
  | some existingAnswer =>
      let updatedAnswer : Answer :=
        { existingAnswer with
          userAnswer := answer.userAnswer
          evaluation := answer.evaluation
          batchEvaluation :=
            match answer.batchEvaluation with
            | some b => some b
            | none => existingAnswer.batchEvaluation }
      (updatedAnswer,
        { s with
          answers := s.answers.map (fun a => if a.id == existingAnswer.id then updatedAnswer else a)
          nextAnswerId := s.nextAnswerId + 1 })
  | none =>
      let newAnswer : Answer :=
        { id := s.nextAnswerId
          questionId := answer.questionId
          userAnswer := answer.userAnswer
          evaluation := answer.evaluation
          batchEvaluation := answer.batchEvaluation
          createdAt := now }
      (newAnswer,
        { s with
          answers := s.answers ++ [newAnswer]
          nextAnswerId := s.nextAnswerId + 1 })

/-- Number of persisted answers for a questionId. -/
def countQ (s : Store) (questionId : Nat) : Nat :=
  s.answers.countP (fun a => a.questionId == questionId)

/-- Well-formedness maintained by MemStorage: answer ids are pairwise
distinct and below the auto-increment counter. -/
def StoreWF (s : Store) : Prop :=
  (s.answers.map (·.id)).Nodup ∧ ∀ a ∈ s.answers, a.id < s.nextAnswerId

/-! ## Route handlers (src/server/routes.ts)

The Gemini call (model.generateContent raced against a 15s timeout) is
modelled by an explicit outcome: either the promise rejected (throw or
timeout) or it resolved to a reply text. -/

/-- Outcome of one model.generateContent call. -/
inductive AIOutcome where
  | err
  | ok (text : String)
deriving DecidableEq, Repr

/-- Index of the last closing brace in a character list. -/
def lastCloseBraceIdx (cs : List Char) : Option Nat :=
  match cs.reverse.findIdx? (fun c => c == '\x7d') with
  | some j => some (cs.length - 1 - j)
  | none => none

/-- The regex match text.match with pattern open-brace [\s\S]* close-brace
used by routes.ts to extract a JSON object: the greedy star makes the match
run from the first opening brace to the last closing brace, and a match
exists iff some closing brace occurs after some opening brace. -/
def jsonObjectMatch (text : String) : Option String :=
  let cs := text.toList
  match cs.findIdx? (fun c => c == '\x7b'), lastCloseBraceIdx cs with
  | some i, some j => if i < j then some (String.mk ((cs.drop i).take (j - i + 1))) else none
  | _, _ => none

/-! ### POST /api/answers (routes.ts lines 294-405) -/

/-- The placeholder evaluation persisted on the deferred path
(routes.ts lines 327-332). -/
def pendingEvaluation : EvaluationResult :=
  { correctness := 0
    feedback := "Pending evaluation at test completion"
    strengths := []
    weaknesses := [] }

/-- The fixed fallback used when parsing the single-answer evaluation from
the model reply fails (routes.ts lines 377-382). -/
def evalParseFallback : EvaluationResult :=
  { correctness := 50
    feedback := "We had trouble evaluating your answer automatically."
    strengths := ["Submission received"]
    weaknesses := ["Evaluation process encountered an error"] }

/-- The temporary, non-persisted answer view sent with the 202 response
(routes.ts lines 309-320). -/
structure TempAnswer where
  id : Int
  questionId : Nat
  userAnswer : String
  evaluation : EvaluationResult
  createdAt : Nat
deriving DecidableEq, Repr

/-- tempAnswer of routes.ts lines 309-320 (id is the -1 sentinel). -/
def tempAnswerOf (now questionId : Nat) (userAnswer : String) (defer : Bool) : TempAnswer :=
  { id := -1
    questionId := questionId
    userAnswer := userAnswer
    evaluation :=
      { correctness := 0
        feedback := if defer then "Evaluation deferred until test completion" else "Evaluating your answer..."
        strengths := []
        weaknesses := [] }
    createdAt := now }

/-- The evaluation the async path ends up with, given the reply text: the
first brace-delimited substring is JSON.parsed (jp returns none when
JSON.parse throws); no match or a parse error yields the fixed fallback
(routes.ts lines 364-383). -/
def answerComputeEvaluation (jp : String → Option EvaluationResult) (text : String) : EvaluationResult :=
  match jsonObjectMatch text with
  | some sub =>
      match jp sub with
      | some e => e
      | none => evalParseFallback
  | none => evalParseFallback

/-- The asynchronous continuation after the 202 was sent (routes.ts lines
343-397): resolve the question (missing question: log only), call the model
(a rejected call: log only), otherwise parse-with-fallback and persist the
answer through insertAnswerSchema.parse and storage.createAnswer. -/
def submitAnswerAsync (jp : String → Option EvaluationResult) (s : Store) (now questionId : Nat)
    (userAnswer : String) (ai : AIOutcome) : Store :=
  match getQuestion s questionId with
  | none => s
  | some _q =>
      match ai with
      | .err => s
      | .ok text =>
          let evaluation := answerComputeEvaluation jp text
          let answerData := insertAnswerSchemaParse
            { questionId := questionId
              userAnswer := userAnswer
              evaluation := evaluation
              batchEvaluation := none }
          (createAnswer s now answerData).2

/-- The body the POST /api/answers handler responds with. -/
inductive SubmitBody where
  | errBody
  | temp (t : TempAnswer)
  | saved (a : Answer)
deriving DecidableEq, Repr

/-- Result of one POST /api/answers request, asynchronous continuation
included: status and body of the immediate HTTP response, the store after
everything settled, and whether model.generateContent was invoked. -/
structure SubmitResult where
  status : Nat
  body : SubmitBody
  store : Store
  aiCalled : Bool
deriving DecidableEq, Repr

/-- POST /api/answers (routes.ts lines 294-405).  Missing fields (JS falsy
check) give 400.  deferEvaluation true: persist the placeholder answer and
respond 200 with it, no AI call.  Otherwise respond 202 with the temporary
answer and run the asynchronous evaluation; the AI is called exactly when
the question lookup succeeds. -/
def handleAnswersRequest (jp : String → Option EvaluationResult) (s : Store) (now questionId : Nat)
    (userAnswer : String) (deferEvaluation : Bool) (ai : AIOutcome) : SubmitResult :=
  if questionId == 0 || userAnswer == "" then
    { status := 400, body := .errBody, store := s, aiCalled := false }
  else if deferEvaluation then
    let answerData := insertAnswerSchemaParse
      { questionId := questionId
        userAnswer := userAnswer
        evaluation := pendingEvaluation
        batchEvaluation := none }
    let res := createAnswer s now answerData
    { status := 200, body := .saved res.1, store := res.2, aiCalled := false }
  else
    { status := 202
      body := .temp (tempAnswerOf now questionId userAnswer false)
      store := submitAnswerAsync jp s now questionId userAnswer ai
      aiCalled := (getQuestion s questionId).isSome }

/-! ### POST /api/sessions/:sessionId/evaluate-all-answers
(routes.ts lines 408-597) -/

/-- The shape the handler extracts from the model reply after JSON.parse
plus the required-field validation (totalScore numeric, strengths and
weaknesses arrays).  A jp parameter returning none models either JSON.parse
throwing or that validation failing. -/
structure BatchParsed where
  totalScore : Int
  strengths : List String
  weaknesses : List String
  recommendedAreas : List String
deriving DecidableEq, Repr

/-- Math.round(sum / len) for an integer sum and positive integer len:
JS Math.round is floor(x + 1/2), i.e. the floor division of 2*sum + len
by 2*len. -/
def jsRoundDiv (sum len : Int) : Int :=
  Int.fdiv (2 * sum + len) (2 * len)

/-- The fallback evaluation built when parsing the batch reply fails
(routes.ts lines 501-532): average of the previously stored per-answer
correctness scores when any exist, else 70, plus fixed text. -/
def batchFallback (topic : String) (answeredQuestions : List QuestionWithAnswer) : BatchParsed :=
  let scores := answeredQuestions.filterMap (fun qa => qa.answer.map (fun a => a.evaluation.correctness))
  let averageScore : Int :=
    if scores.length = 0 then 70 else jsRoundDiv scores.sum scores.length
  { totalScore := averageScore
    strengths :=
      ["You attempted to answer the questions",
       "Your responses show engagement with the material"]
    weaknesses :=
      ["Some concepts need deeper understanding",
       "More detailed examples would improve your answers"]
    recommendedAreas :=
      ["Review core concepts of " ++ topic,
       "Practice applying concepts to specific scenarios"] }

/-- The evaluation the batch handler settles on from the reply text
(routes.ts lines 481-533): extract the first brace-delimited substring,
JSON.parse and validate it, and fall back on any failure. -/
def batchComputeEvaluation (jp : String → Option BatchParsed) (topic : String)
    (answeredQuestions : List QuestionWithAnswer) (text : String) : BatchParsed :=
  match jsonObjectMatch text with
  | some sub =>
      match jp sub with
      | some e => e
      | none => batchFallback topic answeredQuestions
  | none => batchFallback topic answeredQuestions

/-- HTTP response of the batch endpoint.  The 404 branch carries no success
key in JS (undefined, falsy); modelled as success = false. -/
structure BatchResponse where
  status : Nat
  success : Bool
  evaluation : Option BatchEvaluationResult
deriving DecidableEq, Repr

/-- The no-answers guard of routes.ts line 428. -/
def batchGuard (s : Store) (sessionId : Nat) : Bool :=
  let answeredQuestions := getSessionQuestionsWithAnswers s sessionId
  answeredQuestions.length == 0 || answeredQuestions.all (fun qa => qa.answer.isNone)

/-- The batchEvaluationData record built at routes.ts lines 536-542. -/
def batchDataOf (ev : BatchParsed) : BatchEvaluationResult :=
  { totalScore := ev.totalScore
    feedback := "Your test has been evaluated based on your answers."
    strengths := ev.strengths
    weaknesses := ev.weaknesses
    recommendedAreas := ev.recommendedAreas }

/-- The persistence step of routes.ts lines 546-572: only when the FIRST
question of the session has an answer, that answer is overwritten with the
shared totalScore and the stand-in feedback, the batchEvaluation key being
passed to insertAnswerSchema.parse (which strips it). -/
def batchPersistFirst (s : Store) (now : Nat) (answeredQuestions : List QuestionWithAnswer)
    (ev : BatchParsed) : Store :=
  match answeredQuestions with
  | [] => s
  | firstAnswer :: _ =>
      match firstAnswer.answer with
      | none => s
      | some firstAns =>
          let answerData := insertAnswerSchemaParse
            { questionId := firstAnswer.question.id
              userAnswer := firstAns.userAnswer
              evaluation :=
                { correctness := ev.totalScore
                  feedback := "See overall evaluation for details"
                  strengths := ev.strengths
                  weaknesses := ev.weaknesses }
              batchEvaluation := some (batchDataOf ev) }
          (createAnswer s now answerData).2

/-- POST /api/sessions/:sessionId/evaluate-all-answers (routes.ts lines
408-597).  Unknown session: 404.  No answered questions: 400.  A rejected
AI call (throw or 15s timeout) is caught at line 580 and answered with 500
and success false.  A reply text is parsed with fallback; the evaluation is
stored into the first answer of the session through insertAnswerSchema.parse
(which strips the unrecognised batchEvaluation key) when the first question
has an answer; the response is 200 with success true. -/
def evaluateAllAnswers (jp : String → Option BatchParsed) (s : Store) (now sessionId : Nat)
    (ai : AIOutcome) : BatchResponse × Store :=
  match getSession s sessionId with
  | none => (⟨404, false, none⟩, s)
  | some session =>
      let answeredQuestions := getSessionQuestionsWithAnswers s sessionId
      if answeredQuestions.length == 0 || answeredQuestions.all (fun qa => qa.answer.isNone) then
        (⟨400, false, none⟩, s)
      else
        match ai with
        | .err => (⟨500, false, none⟩, s)
        | .ok text =>
            let evaluation := batchComputeEvaluation jp session.topic answeredQuestions text
            (⟨200, true, some (batchDataOf evaluation)⟩,
              batchPersistFirst s now answeredQuestions evaluation)

/-! ### POST /api/questions/generate, save loop (routes.ts lines 174-194)

The parsed reply array may contain malformed entries; an entry is modelled
with Option fields where none stands for a missing or non-string value,
which insertQuestionSchema (zod) rejects by throwing. -/

/-- One entry of the array parsed from the model reply. -/
structure RawQuestion where
  question : Option String
  difficulty : Option String
deriving DecidableEq, Repr

/-- insertQuestionSchema.parse (schema.ts lines 42-46): sessionId is the
valid request number; question and difficulty must be strings, otherwise a
ZodError is thrown (none). -/
def insertQuestionSchemaParse (sessionId : Nat) (raw : RawQuestion) : Option InsertQuestion :=
  match raw.question, raw.difficulty with
  | some q, some d => some { sessionId := sessionId, question := q, difficulty := d }
  | _, _ => none

/-- The save loop of routes.ts lines 175-184, with the exception channel
made explicit: questions are validated and persisted one by one; the first
validation failure throws, keeping the store mutations made so far. -/
def saveGeneratedQuestions (sessionId now : Nat) (s : Store) :
    List RawQuestion → Store × Option (List Question)
  | [] => (s, some [])
  | raw :: rest =>
      match insertQuestionSchemaParse sessionId raw with
      | none => (s, none)
      | some questionData =>
          let res := createQuestion s now questionData
          match saveGeneratedQuestions sessionId now res.2 rest with
          | (s', some more) => (s', some (res.1 :: more))
          | (s', none) => (s', none)

/-- Response of the question-generation handler from the parsed array on:
the thrown ZodError is caught at routes.ts line 187, which answers 500;
on success the saved questions are returned with 200. -/
def generateQuestionsPersist (sessionId now : Nat) (s : Store) (raws : List RawQuestion) :
    Nat × Option (List Question) × Store :=
  match saveGeneratedQuestions sessionId now s raws with
  | (s', some saved) => (200, some saved, s')
  | (s', none) => (500, none, s')

/-! ## The AI response cache (routes.ts lines 639-680)

aiResponseCache is a JS Map from string keys to cached data plus the
Date.now() timestamp at store time; modelled as an association list in
insertion order with Map.set replacing in place.  Time is a Nat tick. -/

/-- One cache entry, data plus timestamp. -/
structure CacheEntry (α : Type) where
  data : α
  timestamp : Nat
deriving DecidableEq, Repr

/-- The aiResponseCache map. -/
def AICache (α : Type) : Type := List (String × CacheEntry α)

/-- CACHE_TTL = 1000 * 60 * 60 (60 minutes). -/
def CACHE_TTL : Nat := 1000 * 60 * 60

/-- Map.get. -/
def cacheLookup {α : Type} (c : AICache α) (key : String) : Option (CacheEntry α) :=
  (c.find? (fun p => p.1 == key)).map (fun p => p.2)

/-- Map.set: replace in place when the key exists, else append. -/
def cacheSet {α : Type} (c : AICache α) (key : String) (e : CacheEntry α) : AICache α :=
  match c with
  | [] => [(key, e)]
  | (k, e') :: rest =>
      if k == key then (key, e) :: rest else (k, e') :: cacheSet rest key e

/-- Result of one getCachedOrFetchFromAI invocation: the returned data (or
the propagated error when the AI call failed), the cache afterwards, and
whether model.generateContent was invoked. -/
structure FetchResult (α : Type) where
  result : Except Unit α
  cache : AICache α
  aiCalled : Bool

/-- getCachedOrFetchFromAI (routes.ts lines 644-680): a stored entry is
used iff now minus its timestamp is below CACHE_TTL; otherwise the model is
called, the processed reply is stored under the key and returned, and an AI
failure propagates without caching anything.  processFn is the per-endpoint
post-processing of the reply text. -/
def getCachedOrFetchFromAI {α : Type} (c : AICache α) (cacheKey : String) (now : Nat)
    (ai : AIOutcome) (processFn : String → α) : FetchResult α :=
  match cacheLookup c cacheKey with
  | some cached =>
      if now - cached.timestamp < CACHE_TTL then
        { result := .ok cached.data, cache := c, aiCalled := false }
      else
        match ai with
        | .err => { result := .error (), cache := c, aiCalled := true }
        | .ok text =>
            let processedData := processFn text
            { result := .ok processedData
              cache := cacheSet c cacheKey { data := processedData, timestamp := now }
              aiCalled := true }
  | none =>
      match ai with
      | .err => { result := .error (), cache := c, aiCalled := true }
      | .ok text =>
          let processedData := processFn text
          { result := .ok processedData
            cache := cacheSet c cacheKey { data := processedData, timestamp := now }
            aiCalled := true }

/-- Cache key of POST /api/teaching (routes.ts line 690). -/
def teachingCacheKey (topic question : String) : String :=
  "teaching:" ++ topic ++ ":" ++ question

/-- JS Array.prototype.sort on strings: lexicographic order.  (JS compares
UTF-16 code units while the Lean order compares code points; both are fixed
total orders, and the claims only depend on the output being a function of
the multiset of elements.) -/
def jsSortStrings (l : List String) : List String :=
  List.insertionSort (fun a b => a ≤ b) l

/-- Cache key of POST /api/notes/generate (routes.ts lines 750-752): the
weak areas are sorted and comma-joined; an absent weakAreas array (Option
none: undefined in JS) keys as the literal none. -/
def notesCacheKey (topic : String) (weakAreas : Option (List String)) : String :=
  let weakAreasKey :=
    match weakAreas with
    | some l => String.intercalate "," (jsSortStrings l)
    | none => "none"
  "notes:" ++ topic ++ ":" ++ weakAreasKey

/-- userAnswer.substring(0, 10). -/
def jsSubstring10 (s : String) : String :=
  String.mk (s.toList.take 10)

/-- The per-answer fingerprint string of POST /api/sessions/:id/evaluate
(routes.ts lines 821-823), built from (question id, userAnswer) pairs. -/
def evaluateAnswersHash (completed : List (Nat × String)) : String :=
  String.intercalate "|" (completed.map (fun p => toString p.1 ++ "-" ++ jsSubstring10 p.2))

/-- The cache key of POST /api/sessions/:id/evaluate (routes.ts line 824):
only the LENGTH of the fingerprint string enters the key. -/
def evaluateCacheKey (sessionId : Nat) (completed : List (Nat × String)) : String :=
  "evaluate:" ++ toString sessionId ++ ":" ++ toString (evaluateAnswersHash completed).length

/-- The pairs actually fed into the fingerprint by the handler: question id
and userAnswer of every answered question of the session. -/
def completedPairs (s : Store) (sessionId : Nat) : List (Nat × String) :=
  (getSessionQuestionsWithAnswers s sessionId).filterMap
    (fun qa => qa.answer.map (fun a => (qa.question.id, a.userAnswer)))

/-! ## Concrete fixtures used by witnesses and counterexamples -/

/-- An empty store. -/
def storeEmpty : Store := ⟨[], [], [], 1, 1⟩

/-- A sample session. -/
def sess1 : Session := ⟨1, 1, "Algebra", "analysis"⟩

/-- Two sample questions of session 1. -/
def q1 : Question := ⟨1, 1, "What is a variable", "easy", 0⟩

def q2 : Question := ⟨2, 1, "What is a function", "medium", 0⟩

/-- Sample stored evaluations. -/
def evalA : EvaluationResult := ⟨80, "good work", [], []⟩

def evalB : EvaluationResult := ⟨20, "needs work", [], []⟩

/-- Stored answers to q1 and q2. -/
def a1 : Answer := ⟨1, 1, "answer one", evalA, none, 0⟩

def a2 : Answer := ⟨2, 2, "answer two", evalB, none, 0⟩

/-- Session 1 with question 1 answered. -/
def storeOneAnswered : Store := ⟨[sess1], [q1], [a1], 2, 2⟩

/-- Session 1 with questions 1 and 2 both answered. -/
def storeTwoAnswered : Store := ⟨[sess1], [q1, q2], [a1, a2], 3, 3⟩

/-- Session 1 with question 1 present but not answered. -/
def storeQuestionOnly : Store := ⟨[sess1], [q1], [], 2, 1⟩

/-- A reply text containing a JSON object (braces written escaped). -/
def textWithBraces : String := "\x7b\x7d"

/-- A reply text with no extractable JSON object. -/
def textNoJson : String := "no json here"

/-- A well-formed parsed question entry. -/
def goodRaw : RawQuestion := ⟨some "What is an equation", some "easy"⟩

/-- A malformed parsed question entry: its question field is missing or not
a string, so insertQuestionSchema.parse throws on it. -/
def badRaw : RawQuestion := ⟨none, some "easy"⟩

/-! ## Toolkit lemmas about MemStorage -/

lemma getQuestionAnswer_mem {s : Store} {qid : Nat} {a : Answer}
    (h : getQuestionAnswer s qid = some a) : a ∈ s.answers ∧ a.questionId = qid := by
  unfold getQuestionAnswer at h
  refine ⟨List.mem_of_find?_eq_some h, ?_⟩
  simpa using List.find?_some h

lemma countP_congr_mem {α : Type} {l : List α} {p q : α → Bool}
    (h : ∀ a ∈ l, p a = q a) : l.countP p = l.countP q := by
  induction l with
  | nil => rfl
  | cons a t ih =>
      rw [List.countP_cons, List.countP_cons, h a (by simp),
        ih (fun x hx => h x (List.mem_cons_of_mem _ hx))]

lemma find?_map_update_self {l : List Answer} {ex upd : Answer} {qid : Nat}
    (hnd : (l.map (·.id)).Nodup)
    (hfind : l.find? (fun a => a.questionId == qid) = some ex)
    (hupd_id : upd.id = ex.id) (hupd_q : upd.questionId = ex.questionId) :
    (l.map (fun a => if a.id == ex.id then upd else a)).find? (fun a => a.questionId == qid)
      = some upd := by
  induction l with
  | nil => simp at hfind
  | cons a t ih =>
      by_cases h : a.questionId = qid
      · have ha : a = ex := by
          rw [List.find?_cons] at hfind
          simpa [h] using hfind
        subst ha
        simp [List.find?_cons, hupd_q, h]
      · have hfind' : t.find? (fun a => a.questionId == qid) = some ex := by
          rw [List.find?_cons] at hfind
          simpa [show (a.questionId == qid) = false by simpa using h] using hfind
        have hexmem : ex ∈ t := List.mem_of_find?_eq_some hfind'
        rw [List.map_cons] at hnd
        have haid : a.id ≠ ex.id := fun hid =>
          (List.nodup_cons.mp hnd).1 (hid ▸ List.mem_map_of_mem (·.id) hexmem)
        simpa [List.find?_cons, haid, h] using ih (List.nodup_cons.mp hnd).2 hfind'

lemma map_update_id_eq {l : List Answer} {ex upd : Answer}
    (hid : ex.id ∉ l.map (·.id)) :
    l.map (fun a => if a.id == ex.id then upd else a) = l := by
  induction l with
  | nil => rfl
  | cons a t ih =>
      simp only [List.map_cons, List.mem_cons, not_or] at hid ⊢
      have haid : a.id ≠ ex.id := fun h => hid.1 h.symm
      rw [if_neg (by simpa using haid), ih hid.2]

lemma find?_map_update_ne {l : List Answer} {ex upd : Answer} {qid : Nat}
    (hnd : (l.map (·.id)).Nodup) (hex : ex ∈ l)
    (hupd_q : upd.questionId = ex.questionId)
    (hne : ex.questionId ≠ qid) :
    (l.map (fun a => if a.id == ex.id then upd else a)).find? (fun a => a.questionId == qid)
      = l.find? (fun a => a.questionId == qid) := by
  induction l with
  | nil => rfl
  | cons a t ih =>
      rw [List.map_cons] at hnd
      rcases List.mem_cons.mp hex with rfl | hext
      · have hupdq : upd.questionId ≠ qid := fun h => hne (hupd_q ▸ h)
        simp only [List.map_cons, if_pos (show (ex.id == ex.id) = true by simp)]
        rw [List.find?_cons, List.find?_cons]
        simp only [show (upd.questionId == qid) = false by simpa using hupdq,
          show (ex.questionId == qid) = false by simpa using hne]
        rw [map_update_id_eq (List.nodup_cons.mp hnd).1]
      · have haid : a.id ≠ ex.id := fun hid =>
          (List.nodup_cons.mp hnd).1 (hid ▸ List.mem_map_of_mem (·.id) hext)
        simp only [List.map_cons, if_neg (show ¬(a.id == ex.id) = true by simpa using haid)]
        rw [List.find?_cons, List.find?_cons]
        by_cases h : a.questionId = qid
        · simp [h]
        · simpa [show (a.questionId == qid) = false by simpa using h]
            using ih (List.nodup_cons.mp hnd).2 hext

lemma find?_append_none {α : Type} {l₁ l₂ : List α} {p : α → Bool}
    (h : l₁.find? p = none) : (l₁ ++ l₂).find? p = l₂.find? p := by
  induction l₁ with
  | nil => rfl
  | cons a t ih =>
      rw [List.find?_cons] at h
      rcases hpa : p a with _ | _
      · rw [List.cons_append, List.find?_cons, hpa]
        rw [hpa] at h
        exact ih h
      · rw [hpa] at h
        simp at h

/-- The answer record produced by createAnswer when an answer for the
questionId already exists. -/
lemma createAnswer_fst_update {s : Store} {now : Nat} {raw : InsertAnswer} {ex : Answer}
    (hex : getQuestionAnswer s raw.questionId = some ex) :
    (createAnswer s now raw).1 =
      { ex with
        userAnswer := raw.userAnswer
        evaluation := raw.evaluation
        batchEvaluation :=
          match raw.batchEvaluation with
          | some b => some b
          | none => ex.batchEvaluation } := by
  unfold createAnswer
  rw [hex]

/-- The answer record produced by createAnswer when the questionId is new. -/
lemma createAnswer_fst_new {s : Store} {now : Nat} {raw : InsertAnswer}
    (hex : getQuestionAnswer s raw.questionId = none) :
    (createAnswer s now raw).1 =
      { id := s.nextAnswerId
        questionId := raw.questionId
        userAnswer := raw.userAnswer
        evaluation := raw.evaluation
        batchEvaluation := raw.batchEvaluation
        createdAt := now } := by
  unfold createAnswer
  rw [hex]

/-- After createAnswer, looking up the questionId returns exactly the
record createAnswer produced. -/
lemma getQuestionAnswer_createAnswer_self {s : Store} {now : Nat} {raw : InsertAnswer}
    (hwf : StoreWF s) :
    getQuestionAnswer (createAnswer s now raw).2 raw.questionId
      = some (createAnswer s now raw).1 := by
  unfold createAnswer
  cases hex : getQuestionAnswer s raw.questionId with
  | some ex =>
      have hfind := hex
      unfold getQuestionAnswer at hfind ⊢
      exact find?_map_update_self hwf.1 hfind rfl rfl
  | none =>
      have hfind := hex
      unfold getQuestionAnswer at hfind ⊢
      rw [find?_append_none hfind, List.find?_cons]
      simp

lemma find?_append_singleton_false {α : Type} {l : List α} {n : α} {p : α → Bool}
    (h : p n = false) : (l ++ [n]).find? p = l.find? p := by
  induction l with
  | nil => simp [List.find?_cons, h]
  | cons a t ih =>
      rw [List.cons_append, List.find?_cons, List.find?_cons]
      cases p a
      · exact ih
      · rfl

/-- createAnswer leaves the answers of every other questionId unchanged. -/
lemma getQuestionAnswer_createAnswer_ne {s : Store} {now : Nat} {raw : InsertAnswer} {qid : Nat}
    (hwf : StoreWF s) (hne : qid ≠ raw.questionId) :
    getQuestionAnswer (createAnswer s now raw).2 qid = getQuestionAnswer s qid := by
  unfold createAnswer
  cases hex : getQuestionAnswer s raw.questionId with
  | some ex =>
      have hmem := getQuestionAnswer_mem hex
      unfold getQuestionAnswer
      exact find?_map_update_ne hwf.1 hmem.1 rfl (fun h => hne (hmem.2 ▸ h).symm)
  | none =>
      unfold getQuestionAnswer
      exact find?_append_singleton_false
        (by simpa using (fun h : raw.questionId = qid => hne h.symm))

lemma map_update_ids {l : List Answer} {ex upd : Answer} (hupd : upd.id = ex.id) :
    (l.map (fun a => if a.id == ex.id then upd else a)).map (·.id) = l.map (·.id) := by
  induction l with
  | nil => rfl
  | cons a t ih =>
      simp only [List.map_cons, ih]
      by_cases h : a.id = ex.id
      · simp [h, hupd]
      · simp [show ¬(a.id == ex.id) = true by simpa using h]

lemma StoreWF_update {s : Store} {ex upd : Answer}
    (hwf : StoreWF s) (hupd : upd.id = ex.id) (hexmem : ex ∈ s.answers) :
    StoreWF { s with
      answers := s.answers.map (fun a => if a.id == ex.id then upd else a)
      nextAnswerId := s.nextAnswerId + 1 } := by
  refine ⟨?_, ?_⟩
  · show ((s.answers.map (fun a => if a.id == ex.id then upd else a)).map (·.id)).Nodup
    rw [map_update_ids hupd]
    exact hwf.1
  · show ∀ a ∈ s.answers.map (fun a => if a.id == ex.id then upd else a),
      a.id < s.nextAnswerId + 1
    intro a ha
    obtain ⟨b, hb, rfl⟩ := List.mem_map.mp ha
    by_cases h : b.id = ex.id
    · rw [if_pos (by simpa using h)]
      have := hwf.2 ex hexmem
      omega
    · rw [if_neg (by simpa using h)]
      have := hwf.2 b hb
      omega

lemma StoreWF_append {s : Store} {n : Answer}
    (hwf : StoreWF s) (hn : n.id = s.nextAnswerId) :
    StoreWF { s with
      answers := s.answers ++ [n]
      nextAnswerId := s.nextAnswerId + 1 } := by
  refine ⟨?_, ?_⟩
  · show ((s.answers ++ [n]).map (·.id)).Nodup
    rw [List.map_append, List.nodup_append]
    refine ⟨hwf.1, by simp, ?_⟩
    intro x hx
    obtain ⟨b, hb, rfl⟩ := List.mem_map.mp hx
    have := hwf.2 b hb
    simp only [List.map_cons, List.map_nil, List.mem_singleton, hn]
    omega
  · show ∀ a ∈ s.answers ++ [n], a.id < s.nextAnswerId + 1
    intro a ha
    rcases List.mem_append.mp ha with ha | ha
    · have := hwf.2 a ha
      omega
    · rw [List.mem_singleton.mp ha, hn]
      omega

/-- createAnswer keeps the store well-formed. -/
lemma createAnswer_WF {s : Store} {now : Nat} {raw : InsertAnswer}
    (hwf : StoreWF s) : StoreWF (createAnswer s now raw).2 := by
  unfold createAnswer
  cases hex : getQuestionAnswer s raw.questionId with
  | some ex =>
      exact StoreWF_update hwf rfl (getQuestionAnswer_mem hex).1
  | none =>
      exact StoreWF_append hwf rfl

/-- createAnswer drives the answer count for its questionId to exactly one
when the store held at most one. -/
lemma countQ_createAnswer {s : Store} {now : Nat} {raw : InsertAnswer}
    (hwf : StoreWF s) (hle : countQ s raw.questionId ≤ 1) :
    countQ (createAnswer s now raw).2 raw.questionId = 1 := by
  obtain ⟨hnd, _hbound⟩ := hwf
  unfold createAnswer
  cases hex : getQuestionAnswer s raw.questionId with
  | some ex =>
      have hmem := getQuestionAnswer_mem hex
      unfold countQ at hle ⊢
      simp only
      rw [List.countP_map]
      have hcong : s.answers.countP
          ((fun a => a.questionId == raw.questionId) ∘ (fun a => if a.id == ex.id then
            { ex with
              userAnswer := raw.userAnswer
              evaluation := raw.evaluation
              batchEvaluation :=
                match raw.batchEvaluation with
                | some b => some b
                | none => ex.batchEvaluation } else a))
          = s.answers.countP (fun a => a.questionId == raw.questionId) := by
        refine countP_congr_mem (fun a ha => ?_)
        by_cases h : a.id = ex.id
        · have : a = ex := List.inj_on_of_nodup_map hnd ha hmem.1 (by simpa using h)
          subst this
          simp [Function.comp, hmem.2]
        · simp [Function.comp, show ¬(a.id == ex.id) = true by simpa using h]
      rw [hcong]
      have hpos : 0 < s.answers.countP (fun a => a.questionId == raw.questionId) :=
        List.countP_pos_iff.mpr ⟨ex, hmem.1, by simpa using hmem.2⟩
      omega
  | none =>
      have hnone : ∀ a ∈ s.answers, ¬((fun a => a.questionId == raw.questionId) a = true) := by
        simpa [getQuestionAnswer, List.find?_eq_none] using hex
      unfold countQ
      simp only
      rw [List.countP_append]
      have h0 : s.answers.countP (fun a => a.questionId == raw.questionId) = 0 :=
        List.countP_eq_zero.mpr hnone
      rw [h0]
      simp

/-- Every element of getSessionQuestionsWithAnswers pairs a question with
exactly the stored answer of that question. -/
lemma mem_getSessionQuestionsWithAnswers {s : Store} {sid : Nat} {qa : QuestionWithAnswer}
    (h : qa ∈ getSessionQuestionsWithAnswers s sid) :
    qa.answer = getQuestionAnswer s qa.question.id := by
  unfold getSessionQuestionsWithAnswers at h
  obtain ⟨q, _hq, rfl⟩ := List.mem_map.mp h
  rfl

/-! ## Toolkit lemmas about the numeric fallback -/

lemma jsRoundDiv_bound {sum len : Int} (hlen : 1 ≤ len) (h0 : 0 ≤ sum)
    (h100 : sum ≤ 100 * len) :
    0 ≤ jsRoundDiv sum len ∧ jsRoundDiv sum len ≤ 100 := by
  unfold jsRoundDiv
  rw [Int.fdiv_eq_ediv _ (by omega)]
  refine ⟨Int.ediv_nonneg (by omega) (by omega), ?_⟩
  have h1 : 2 * sum + len ≤ len + 2 * len * 100 := by omega
  have h2 : (2 * sum + len) / (2 * len) ≤ (len + 2 * len * 100) / (2 * len) :=
    Int.ediv_le_ediv (by omega) h1
  rw [Int.add_mul_ediv_left _ _ (show (2 : Int) * len ≠ 0 by omega)] at h2
  have hz : len / (2 * len) = 0 := Int.ediv_eq_zero_of_lt (by omega) (by omega)
  rw [hz] at h2
  omega

lemma sum_bound_of_forall {l : List Int} (h : ∀ x ∈ l, 0 ≤ x ∧ x ≤ 100) :
    0 ≤ l.sum ∧ l.sum ≤ 100 * (l.length : Int) := by
  induction l with
  | nil => simp
  | cons a t ih =>
      have ha := h a (List.mem_cons_self a t)
      have ht := ih (fun x hx => h x (List.mem_cons_of_mem _ hx))
      simp only [List.sum_cons, List.length_cons]
      push_cast
      constructor <;> [omega; nlinarith [ht.2]]

/-- The fallback totalScore stays in [0, 100] whenever every previously
stored correctness score does. -/
lemma batchFallback_totalScore_bound {topic : String} {aqs : List QuestionWithAnswer}
    (h : ∀ qa ∈ aqs, ∀ a, qa.answer = some a →
      0 ≤ a.evaluation.correctness ∧ a.evaluation.correctness ≤ 100) :
    0 ≤ (batchFallback topic aqs).totalScore ∧ (batchFallback topic aqs).totalScore ≤ 100 := by
  unfold batchFallback
  set scores := aqs.filterMap (fun qa => qa.answer.map (fun a => a.evaluation.correctness))
    with hscores
  by_cases hl : scores.length = 0
  · simp [hl]
  · have hmem : ∀ x ∈ scores, 0 ≤ x ∧ x ≤ 100 := by
      intro x hx
      rw [hscores] at hx
      obtain ⟨qa, hqa, hmap⟩ := List.mem_filterMap.mp hx
      simp only [Option.map_eq_some'] at hmap
      obtain ⟨a, hans, hx'⟩ := hmap
      exact hx' ▸ h qa hqa a hans
    have hsum := sum_bound_of_forall hmem
    have hb := @jsRoundDiv_bound scores.sum (scores.length : Int)
      (by omega) hsum.1 hsum.2
    simpa [hl] using hb

/-! ## Toolkit lemmas about the response cache -/

lemma cacheLookup_cacheSet_self {α : Type} (c : AICache α) (k : String) (e : CacheEntry α) :
    cacheLookup (cacheSet c k e) k = some e := by
  induction c with
  | nil => simp [cacheSet, cacheLookup, List.find?_cons]
  | cons p rest ih =>
      obtain ⟨k', e'⟩ := p
      unfold cacheSet
      by_cases h : k' = k
      · simp [h, cacheLookup, List.find?_cons]
      · rw [if_neg (by simpa using h)]
        unfold cacheLookup at ih ⊢
        rw [List.find?_cons]
        simpa [show (k' == k) = false by simpa using h] using ih

lemma cacheLookup_cacheSet_ne {α : Type} (c : AICache α) (k k' : String) (e : CacheEntry α)
    (h : k' ≠ k) : cacheLookup (cacheSet c k e) k' = cacheLookup c k' := by
  have hkk' : (k == k') = false := by simpa using (fun hh : k = k' => h hh.symm)
  induction c with
  | nil =>
      unfold cacheSet cacheLookup
      rw [List.find?_cons]
      simp [hkk']
  | cons p rest ih =>
      obtain ⟨k₀, e₀⟩ := p
      unfold cacheSet
      by_cases hk : k₀ = k
      · subst hk
        unfold cacheLookup
        rw [if_pos (by simp), List.find?_cons, List.find?_cons]
        simp only [hkk']
      · rw [if_neg (by simpa using hk)]
        unfold cacheLookup at ih ⊢
        rw [List.find?_cons, List.find?_cons]
        cases hp : (k₀ == k')
        · exact ih
        · rfl

/-! ## Toolkit lemmas about strings and sorting -/

lemma string_append_left_cancel {s a b : String} (h : s ++ a = s ++ b) : a = b := by
  have hd := congrArg String.data h
  simp only [String.data_append] at hd
  exact String.ext (List.append_cancel_left hd)

/-- For a fixed topic, the teaching cache key determines the question. -/
lemma teachingCacheKey_inj {topic q1 q2 : String}
    (h : teachingCacheKey topic q1 = teachingCacheKey topic q2) : q1 = q2 := by
  unfold teachingCacheKey at h
  exact string_append_left_cancel h

/-- JS sort produces the same output on any two permutations of a list. -/
lemma jsSortStrings_perm_eq {l1 l2 : List String} (h : l1.Perm l2) :
    jsSortStrings l1 = jsSortStrings l2 :=
  List.eq_of_perm_of_sorted
    (((List.perm_insertionSort _ l1).trans h).trans (List.perm_insertionSort _ l2).symm)
    (List.sorted_insertionSort _ l1)
    (List.sorted_insertionSort _ l2)

/-- createAnswer always copies userAnswer and evaluation from its input. -/
lemma createAnswer_fst_fields (s : Store) (now : Nat) (raw : InsertAnswer) :
    (createAnswer s now raw).1.userAnswer = raw.userAnswer ∧
    (createAnswer s now raw).1.evaluation = raw.evaluation := by
  unfold createAnswer
  cases getQuestionAnswer s raw.questionId <;> exact ⟨rfl, rfl⟩

/-- Cache equation: a miss with a successful AI call fetches, stores and
reports the call. -/
lemma getCachedOrFetch_miss {α : Type} (c : AICache α) (k : String) (now : Nat)
    (text : String) (p : String → α) (h : cacheLookup c k = none) :
    getCachedOrFetchFromAI c k now (.ok text) p =
      { result := .ok (p text), cache := cacheSet c k ⟨p text, now⟩, aiCalled := true } := by
  unfold getCachedOrFetchFromAI
  rw [h]

/-- Cache equation: a miss with a failing AI call propagates the error and
caches nothing. -/
lemma getCachedOrFetch_miss_err {α : Type} (c : AICache α) (k : String) (now : Nat)
    (p : String → α) (h : cacheLookup c k = none) :
    getCachedOrFetchFromAI c k now .err p =
      { result := .error (), cache := c, aiCalled := true } := by
  unfold getCachedOrFetchFromAI
  rw [h]

/-- Cache equation: a fresh entry is a hit, no AI call. -/
lemma getCachedOrFetch_hit {α : Type} (c : AICache α) (k : String) (now : Nat)
    (ai : AIOutcome) (p : String → α) (e : CacheEntry α)
    (h : cacheLookup c k = some e) (httl : now - e.timestamp < CACHE_TTL) :
    getCachedOrFetchFromAI c k now ai p =
      { result := .ok e.data, cache := c, aiCalled := false } := by
  unfold getCachedOrFetchFromAI
  rw [h]
  simp [httl]

/-- Cache equation: a stale entry forces an AI call. -/
lemma getCachedOrFetch_stale_called {α : Type} (c : AICache α) (k : String) (now : Nat)
    (ai : AIOutcome) (p : String → α) (e : CacheEntry α)
    (h : cacheLookup c k = some e) (httl : ¬ now - e.timestamp < CACHE_TTL) :
    (getCachedOrFetchFromAI c k now ai p).aiCalled = true := by
  unfold getCachedOrFetchFromAI
  rw [h]
  simp only [if_neg httl]
  cases ai <;> rfl

/-- All-valid save loop: every entry is persisted and the loop succeeds. -/
lemma saveGQ_all_valid {sessionId now : Nat} {raws : List RawQuestion} (s : Store)
    (h : ∀ r ∈ raws, (insertQuestionSchemaParse sessionId r).isSome) :
    (saveGeneratedQuestions sessionId now s raws).2.isSome ∧
    (saveGeneratedQuestions sessionId now s raws).1.questions.length
      = s.questions.length + raws.length := by
  induction raws generalizing s with
  | nil => simp [saveGeneratedQuestions]
  | cons raw rest ih =>
      obtain ⟨qd, hqd⟩ := Option.isSome_iff_exists.mp (h raw (List.mem_cons_self raw rest))
      have ihr := ih (createQuestion s now qd).2 (fun r hrr => h r (List.mem_cons_of_mem _ hrr))
      have hlen : (createQuestion s now qd).2.questions.length = s.questions.length + 1 := by
        simp [createQuestion]
      unfold saveGeneratedQuestions
      simp only [hqd]
      cases hrec : saveGeneratedQuestions sessionId now (createQuestion s now qd).2 rest with
      | mk s' osaved =>
          rw [hrec] at ihr
          cases osaved with
          | some more =>
              refine ⟨by simp, ?_⟩
              simp only [List.length_cons]
              simp only at ihr
              omega
          | none => simp at ihr

/-- Save loop hitting a malformed entry: the thrown error leaves the loop
with the valid prefix persisted and no result. -/
lemma saveGQ_invalid {sessionId now : Nat} {pre post : List RawQuestion} {bad : RawQuestion}
    (s : Store)
    (hpre : ∀ r ∈ pre, (insertQuestionSchemaParse sessionId r).isSome)
    (hbad : insertQuestionSchemaParse sessionId bad = none) :
    (saveGeneratedQuestions sessionId now s (pre ++ bad :: post)).2 = none ∧
    (saveGeneratedQuestions sessionId now s (pre ++ bad :: post)).1.questions.length
      = s.questions.length + pre.length := by
  induction pre generalizing s with
  | nil =>
      simp only [List.nil_append]
      unfold saveGeneratedQuestions
      rw [hbad]
      simp
  | cons r rest ih =>
      obtain ⟨qd, hqd⟩ := Option.isSome_iff_exists.mp (hpre r (List.mem_cons_self r rest))
      have ihr := ih (createQuestion s now qd).2 (fun x hx => hpre x (List.mem_cons_of_mem _ hx))
      have hlen : (createQuestion s now qd).2.questions.length = s.questions.length + 1 := by
        simp [createQuestion]
      rw [List.cons_append]
      unfold saveGeneratedQuestions
      simp only [hqd]
      cases hrec : saveGeneratedQuestions sessionId now (createQuestion s now qd).2
          (rest ++ bad :: post) with
      | mk s' o =>
          rw [hrec] at ihr
          cases o with
          | some more => simp at ihr
          | none =>
              refine ⟨by simp, ?_⟩
              simp only [List.length_cons]
              simp only at ihr
              omega

/-- Batch endpoint equation: unknown session answers 404. -/
lemma evalAll_404 (jp : String → Option BatchParsed) (s : Store) (now sessionId : Nat)
    (ai : AIOutcome) (h : getSession s sessionId = none) :
    evaluateAllAnswers jp s now sessionId ai = (⟨404, false, none⟩, s) := by
  unfold evaluateAllAnswers
  rw [h]

/-- Batch endpoint equation: no answered questions answers 400. -/
lemma evalAll_400 (jp : String → Option BatchParsed) (s : Store) (now sessionId : Nat)
    (ai : AIOutcome) (sess : Session) (hsess : getSession s sessionId = some sess)
    (hguard : batchGuard s sessionId = true) :
    evaluateAllAnswers jp s now sessionId ai = (⟨400, false, none⟩, s) := by
  have hguard' : ((getSessionQuestionsWithAnswers s sessionId).length == 0
      || (getSessionQuestionsWithAnswers s sessionId).all (fun qa => qa.answer.isNone)) = true :=
    hguard
  unfold evaluateAllAnswers
  rw [hsess]
  simp [hguard']

/-- Batch endpoint equation: a rejected AI call is caught and answered with
500 and success false, the store untouched. -/
lemma evalAll_err (jp : String → Option BatchParsed) (s : Store) (now sessionId : Nat)
    (sess : Session) (hsess : getSession s sessionId = some sess)
    (hguard : batchGuard s sessionId = false) :
    evaluateAllAnswers jp s now sessionId .err = (⟨500, false, none⟩, s) := by
  have hguard' : ((getSessionQuestionsWithAnswers s sessionId).length == 0
      || (getSessionQuestionsWithAnswers s sessionId).all (fun qa => qa.answer.isNone)) = false :=
    hguard
  unfold evaluateAllAnswers
  rw [hsess]
  simp [hguard']

/-- Batch endpoint equation: a reply text is parsed with fallback, answered
with 200 and success true, and the first answer persisted. -/
lemma evalAll_ok (jp : String → Option BatchParsed) (s : Store) (now sessionId : Nat)
    (text : String) (sess : Session) (hsess : getSession s sessionId = some sess)
    (hguard : batchGuard s sessionId = false) :
    evaluateAllAnswers jp s now sessionId (.ok text) =
      (⟨200, true, some (batchDataOf (batchComputeEvaluation jp sess.topic
          (getSessionQuestionsWithAnswers s sessionId) text))⟩,
        batchPersistFirst s now (getSessionQuestionsWithAnswers s sessionId)
          (batchComputeEvaluation jp sess.topic (getSessionQuestionsWithAnswers s sessionId) text)) := by
  have hguard' : ((getSessionQuestionsWithAnswers s sessionId).length == 0
      || (getSessionQuestionsWithAnswers s sessionId).all (fun qa => qa.answer.isNone)) = false :=
    hguard
  unfold evaluateAllAnswers
  rw [hsess]
  simp [hguard']

/-- Persistence step on a session whose first question is answered: the
answer of the first question is overwritten through insertAnswerSchema
(which strips the batchEvaluation key). -/
lemma batchPersistFirst_cons_some (s : Store) (now : Nat) (qa0 : QuestionWithAnswer)
    (rest : List QuestionWithAnswer) (ev : BatchParsed) (ans0 : Answer)
    (hans : qa0.answer = some ans0) :
    batchPersistFirst s now (qa0 :: rest) ev
      = (createAnswer s now ⟨qa0.question.id, ans0.userAnswer,
          ⟨ev.totalScore, "See overall evaluation for details", ev.strengths, ev.weaknesses⟩,
          none⟩).2 := by
  simp only [batchPersistFirst]
  rw [hans]
  rfl

/-! ## Claim theorems -/

/-- C5: when the single-answer evaluation parser cannot extract a JSON
object from the model reply, the handler settles on exactly the fixed
fallback evaluation (correctness 50, a generic error note, strengths
Submission received, weaknesses Evaluation process encountered an error)
and persists it for the questionId; the async path is a total function of
the store, so the parse failure never propagates as a thrown error. -/
theorem claim5_parse_failure_fallback (jp : String → Option EvaluationResult) (s : Store)
    (now qid : Nat) (ua text : String) (q : Question)
    (hwf : StoreWF s) (hq : getQuestion s qid = some q)
    (hjson : jsonObjectMatch text = none) :
    ∃ a, getQuestionAnswer (submitAnswerAsync jp s now qid ua (.ok text)) qid = some a ∧
      a.evaluation = ⟨50, "We had trouble evaluating your answer automatically.",
        ["Submission received"], ["Evaluation process encountered an error"]⟩ ∧
      a.userAnswer = ua := by
  have heval : answerComputeEvaluation jp text = evalParseFallback := by
    unfold answerComputeEvaluation
    rw [hjson]
  have hstore : submitAnswerAsync jp s now qid ua (.ok text)
      = (createAnswer s now ⟨qid, ua, answerComputeEvaluation jp text, none⟩).2 := by
    unfold submitAnswerAsync
    rw [hq]
    rfl
  rw [hstore, heval]
  refine ⟨(createAnswer s now ⟨qid, ua, evalParseFallback, none⟩).1, ?_, ?_, ?_⟩
  · exact getQuestionAnswer_createAnswer_self hwf
  · rw [(createAnswer_fst_fields s now ⟨qid, ua, evalParseFallback, none⟩).2]
    rfl
  · rw [(createAnswer_fst_fields s now ⟨qid, ua, evalParseFallback, none⟩).1]

/-- Witness for C5: a concrete store with question 1 and a reply with no
JSON object, evaluated end to end. -/
theorem claim5_witness :
    ∃ a, getQuestionAnswer
        (submitAnswerAsync (fun _ => none) storeQuestionOnly 0 1 "my answer" (.ok textNoJson)) 1
        = some a ∧
      a.evaluation = ⟨50, "We had trouble evaluating your answer automatically.",
        ["Submission received"], ["Evaluation process encountered an error"]⟩ ∧
      a.userAnswer = "my answer" :=
  claim5_parse_failure_fallback (fun _ => none) storeQuestionOnly 0 1 "my answer" textNoJson q1
    (by constructor <;> simp [storeQuestionOnly])
    (by decide)
    (by decide)

/-- C6: MemStorage.createAnswer is an upsert keyed by questionId: from a
store holding at most one answer for the questionId, the first submission
leaves exactly one, and a second submission overwrites the userAnswer and
evaluation fields of that record instead of appending, again leaving
exactly one persisted Answer, now carrying the second submission. -/
theorem claim6_answer_upsert (s : Store) (now1 now2 qid : Nat) (r1 r2 : InsertAnswer)
    (hwf : StoreWF s) (hcount : countQ s qid ≤ 1)
    (h1 : r1.questionId = qid) (h2 : r2.questionId = qid) :
    countQ (createAnswer s now1 r1).2 qid = 1 ∧
    countQ (createAnswer (createAnswer s now1 r1).2 now2 r2).2 qid = 1 ∧
    ∃ a, getQuestionAnswer (createAnswer (createAnswer s now1 r1).2 now2 r2).2 qid = some a ∧
      a.userAnswer = r2.userAnswer ∧ a.evaluation = r2.evaluation := by
  have hwf1 : StoreWF (createAnswer s now1 r1).2 := createAnswer_WF hwf
  have hc1 : countQ (createAnswer s now1 r1).2 qid = 1 := by
    subst h1
    exact countQ_createAnswer hwf hcount
  refine ⟨hc1, ?_, ?_⟩
  · subst h2
    exact countQ_createAnswer hwf1 (le_of_eq hc1)
  · refine ⟨(createAnswer (createAnswer s now1 r1).2 now2 r2).1, ?_, ?_, ?_⟩
    · subst h2
      exact getQuestionAnswer_createAnswer_self hwf1
    · exact (createAnswer_fst_fields _ now2 r2).1
    · exact (createAnswer_fst_fields _ now2 r2).2

/-- Witness for C6: two consecutive submissions for questionId 1 on the
empty store leave exactly one answer, carrying the second submission. -/
theorem claim6_witness :
    countQ (createAnswer (createAnswer storeEmpty 0 ⟨1, "first", evalA, none⟩).2 1
      ⟨1, "second", evalB, none⟩).2 1 = 1 ∧
    ∃ a, getQuestionAnswer (createAnswer (createAnswer storeEmpty 0 ⟨1, "first", evalA, none⟩).2 1
        ⟨1, "second", evalB, none⟩).2 1 = some a ∧
      a.userAnswer = "second" ∧ a.evaluation = evalB := by
  have h := claim6_answer_upsert storeEmpty 0 1 1 ⟨1, "first", evalA, none⟩
    ⟨1, "second", evalB, none⟩
    (by constructor <;> simp [storeEmpty])
    (by decide) rfl rfl
  exact ⟨h.2.1, h.2.2⟩

/-- C7: a submission with deferEvaluation true performs no AI call,
persists the placeholder evaluation (correctness 0, feedback Pending
evaluation at test completion) synchronously, and responds 200 with that
persisted placeholder Answer. -/
theorem claim7_defer_no_ai_call (jp : String → Option EvaluationResult) (s : Store)
    (now qid : Nat) (ua : String) (ai : AIOutcome)
    (hwf : StoreWF s) (hqid : qid ≠ 0) (hua : ua ≠ "") :
    (handleAnswersRequest jp s now qid ua true ai).status = 200 ∧
    (handleAnswersRequest jp s now qid ua true ai).aiCalled = false ∧
    ∃ a, (handleAnswersRequest jp s now qid ua true ai).body = .saved a ∧
      a.evaluation = ⟨0, "Pending evaluation at test completion", [], []⟩ ∧
      a.userAnswer = ua ∧
      getQuestionAnswer (handleAnswersRequest jp s now qid ua true ai).store qid = some a := by
  have hguard : (qid == 0 || ua == "") = false := by
    simp [hqid, hua]
  have heq : handleAnswersRequest jp s now qid ua true ai
      = { status := 200
          body := .saved (createAnswer s now ⟨qid, ua, pendingEvaluation, none⟩).1
          store := (createAnswer s now ⟨qid, ua, pendingEvaluation, none⟩).2
          aiCalled := false } := by
    unfold handleAnswersRequest
    rw [hguard]
    rfl
  rw [heq]
  refine ⟨rfl, rfl, (createAnswer s now ⟨qid, ua, pendingEvaluation, none⟩).1, rfl, ?_, ?_, ?_⟩
  · rw [(createAnswer_fst_fields s now ⟨qid, ua, pendingEvaluation, none⟩).2]
    rfl
  · exact (createAnswer_fst_fields s now ⟨qid, ua, pendingEvaluation, none⟩).1
  · exact getQuestionAnswer_createAnswer_self hwf

/-- C4 amended: the evaluate cache key is the deterministic string
evaluate, session id, then the LENGTH of the fingerprint built from the
answered questions; identical inputs therefore always give identical keys,
but any two answer sets whose fingerprint strings merely have equal length
collide on the same key, so a content change that preserves that length
does not change the key. -/
theorem claim4_key_depends_on_length_only (sessionId : Nat) (l1 l2 : List (Nat × String))
    (hlen : (evaluateAnswersHash l1).length = (evaluateAnswersHash l2).length) :
    evaluateCacheKey sessionId l1 = evaluateCacheKey sessionId l2 := by
  unfold evaluateCacheKey
  rw [hlen]

/-- Witness for C4 amended: two concrete answer sets with equal-length
fingerprints share a key. -/
theorem claim4_witness :
    evaluateCacheKey 1 [(1, "aaaa")] = evaluateCacheKey 1 [(1, "bbbb")] :=
  claim4_key_depends_on_length_only 1 [(1, "aaaa")] [(1, "bbbb")] (by decide)

/-- Counterexample for C4 as stated: the answer sets (1, aaaa) and
(1, bbbb) for session 1 are distinct, and the change of content does NOT
change the cache key, refuting that any change to the answers content
changes the key. -/
theorem claim4_counterexample :
    evaluateCacheKey 1 [(1, "aaaa")] = evaluateCacheKey 1 [(1, "bbbb")] ∧
    ([(1, "aaaa")] : List (Nat × String)) ≠ [(1, "bbbb")] := by
  constructor
  · decide
  · decide

/-- C9: the teaching cache: a stored entry is a hit iff now minus storedAt
is below CACHE_TTL; calling with the same (topic, question) twice inside
the TTL window invokes the AI exactly once, the second call being served
from cache with the stored data and any AI outcome unused; and a changed
question changes the cache key, so it misses and invokes the AI again. -/
theorem claim9_teaching_cache (α : Type) (c : AICache α) (topic qA qB : String)
    (t0 t1 : Nat) (text1 text2 : String) (p : String → α) (ai2 : AIOutcome)
    (hq : qA ≠ qB)
    (hmiss1 : cacheLookup c (teachingCacheKey topic qA) = none)
    (hmiss2 : cacheLookup c (teachingCacheKey topic qB) = none)
    (httl : t1 - t0 < CACHE_TTL) :
    (getCachedOrFetchFromAI c (teachingCacheKey topic qA) t0 (.ok text1) p).aiCalled = true ∧
    (getCachedOrFetchFromAI c (teachingCacheKey topic qA) t0 (.ok text1) p).result = .ok (p text1) ∧
    (∀ now : Nat, ∀ ai : AIOutcome,
      (getCachedOrFetchFromAI
        (getCachedOrFetchFromAI c (teachingCacheKey topic qA) t0 (.ok text1) p).cache
        (teachingCacheKey topic qA) now ai p).aiCalled = false ↔ now - t0 < CACHE_TTL) ∧
    (getCachedOrFetchFromAI
      (getCachedOrFetchFromAI c (teachingCacheKey topic qA) t0 (.ok text1) p).cache
      (teachingCacheKey topic qA) t1 ai2 p).result = .ok (p text1) ∧
    teachingCacheKey topic qA ≠ teachingCacheKey topic qB ∧
    (getCachedOrFetchFromAI
      (getCachedOrFetchFromAI c (teachingCacheKey topic qA) t0 (.ok text1) p).cache
      (teachingCacheKey topic qB) t1 (.ok text2) p).aiCalled = true := by
  have h1 := getCachedOrFetch_miss c (teachingCacheKey topic qA) t0 text1 p hmiss1
  have hlook : cacheLookup
      (getCachedOrFetchFromAI c (teachingCacheKey topic qA) t0 (.ok text1) p).cache
      (teachingCacheKey topic qA) = some ⟨p text1, t0⟩ := by
    rw [h1]
    exact cacheLookup_cacheSet_self c (teachingCacheKey topic qA) ⟨p text1, t0⟩
  have hkeyne : teachingCacheKey topic qA ≠ teachingCacheKey topic qB :=
    fun h => hq (teachingCacheKey_inj h)
  have hlook2 : cacheLookup
      (getCachedOrFetchFromAI c (teachingCacheKey topic qA) t0 (.ok text1) p).cache
      (teachingCacheKey topic qB) = none := by
    rw [h1]
    rw [cacheLookup_cacheSet_ne c (teachingCacheKey topic qA) (teachingCacheKey topic qB) _
      (fun h => hkeyne h.symm)]
    exact hmiss2
  refine ⟨by rw [h1], by rw [h1], ?_, ?_, hkeyne, ?_⟩
  · intro now ai
    constructor
    · intro hcalled
      by_contra hstale
      rw [getCachedOrFetch_stale_called _ _ _ _ _ _ hlook hstale] at hcalled
      simp at hcalled
    · intro hfresh
      rw [getCachedOrFetch_hit _ _ _ _ _ _ hlook hfresh]
  · rw [getCachedOrFetch_hit _ _ _ _ _ _ hlook httl]
  · rw [getCachedOrFetch_miss _ _ _ _ _ hlook2]

/-- Witness for C9: a concrete run over the empty cache with topic Algebra
and two distinct questions. -/
theorem claim9_witness :
    (getCachedOrFetchFromAI ([] : AICache String) (teachingCacheKey "Algebra" "q one") 0
      (.ok "reply") (fun t => t)).aiCalled = true ∧
    (getCachedOrFetchFromAI
      (getCachedOrFetchFromAI ([] : AICache String) (teachingCacheKey "Algebra" "q one") 0
        (.ok "reply") (fun t => t)).cache
      (teachingCacheKey "Algebra" "q one") 10 .err (fun t => t)).aiCalled = false ∧
    (getCachedOrFetchFromAI
      (getCachedOrFetchFromAI ([] : AICache String) (teachingCacheKey "Algebra" "q one") 0
        (.ok "reply") (fun t => t)).cache
      (teachingCacheKey "Algebra" "q one") 10 .err (fun t => t)).result = .ok "reply" ∧
    (getCachedOrFetchFromAI
      (getCachedOrFetchFromAI ([] : AICache String) (teachingCacheKey "Algebra" "q one") 0
        (.ok "reply") (fun t => t)).cache
      (teachingCacheKey "Algebra" "q two") 10 (.ok "other") (fun t => t)).aiCalled = true := by
  have h := claim9_teaching_cache String ([] : AICache String) "Algebra" "q one" "q two"
    0 10 "reply" "other" (fun t => t) .err
    (by decide) rfl rfl (by decide)
  exact ⟨h.1, (h.2.2.1 10 .err).mpr (by decide), h.2.2.2.1, h.2.2.2.2.2⟩

/-- C10: the notes cache key sorts the weak areas before joining them, so
two weak-area lists that are permutations of each other produce the
identical key, and a second notes request inside the TTL window whose
weakAreas list is merely reordered is served from cache with the stored
notes and no new AI call. -/
theorem claim10_notes_perm_cached (α : Type) (topic : String) (l1 l2 : List String)
    (c : AICache α) (t0 t1 : Nat) (text : String) (p : String → α) (ai2 : AIOutcome)
    (hperm : l1.Perm l2)
    (hmiss : cacheLookup c (notesCacheKey topic (some l1)) = none)
    (httl : t1 - t0 < CACHE_TTL) :
    notesCacheKey topic (some l1) = notesCacheKey topic (some l2) ∧
    (getCachedOrFetchFromAI c (notesCacheKey topic (some l1)) t0 (.ok text) p).aiCalled = true ∧
    (getCachedOrFetchFromAI
      (getCachedOrFetchFromAI c (notesCacheKey topic (some l1)) t0 (.ok text) p).cache
      (notesCacheKey topic (some l2)) t1 ai2 p).aiCalled = false ∧
    (getCachedOrFetchFromAI
      (getCachedOrFetchFromAI c (notesCacheKey topic (some l1)) t0 (.ok text) p).cache
      (notesCacheKey topic (some l2)) t1 ai2 p).result = .ok (p text) := by
  have hkey : notesCacheKey topic (some l1) = notesCacheKey topic (some l2) := by
    show "notes:" ++ topic ++ ":" ++ String.intercalate "," (jsSortStrings l1)
      = "notes:" ++ topic ++ ":" ++ String.intercalate "," (jsSortStrings l2)
    rw [jsSortStrings_perm_eq hperm]
  have h1 := getCachedOrFetch_miss c (notesCacheKey topic (some l1)) t0 text p hmiss
  have hlook : cacheLookup
      (getCachedOrFetchFromAI c (notesCacheKey topic (some l1)) t0 (.ok text) p).cache
      (notesCacheKey topic (some l2)) = some ⟨p text, t0⟩ := by
    rw [← hkey, h1]
    exact cacheLookup_cacheSet_self c (notesCacheKey topic (some l1)) ⟨p text, t0⟩
  refine ⟨hkey, by rw [h1], ?_, ?_⟩
  · rw [getCachedOrFetch_hit _ _ _ _ _ _ hlook httl]
  · rw [getCachedOrFetch_hit _ _ _ _ _ _ hlook httl]

/-- Witness for C10: weak areas listed in two different orders hit the same
cache entry. -/
theorem claim10_witness :
    notesCacheKey "Algebra" (some ["x terms", "y terms"])
      = notesCacheKey "Algebra" (some ["y terms", "x terms"]) ∧
    (getCachedOrFetchFromAI ([] : AICache String)
      (notesCacheKey "Algebra" (some ["x terms", "y terms"])) 0 (.ok "the notes")
      (fun t => t)).aiCalled = true ∧
    (getCachedOrFetchFromAI
      (getCachedOrFetchFromAI ([] : AICache String)
        (notesCacheKey "Algebra" (some ["x terms", "y terms"])) 0 (.ok "the notes")
        (fun t => t)).cache
      (notesCacheKey "Algebra" (some ["y terms", "x terms"])) 5 .err (fun t => t)).aiCalled
      = false ∧
    (getCachedOrFetchFromAI
      (getCachedOrFetchFromAI ([] : AICache String)
        (notesCacheKey "Algebra" (some ["x terms", "y terms"])) 0 (.ok "the notes")
        (fun t => t)).cache
      (notesCacheKey "Algebra" (some ["y terms", "x terms"])) 5 .err (fun t => t)).result
      = .ok "the notes" :=
  claim10_notes_perm_cached String "Algebra" ["x terms", "y terms"] ["y terms", "x terms"]
    ([] : AICache String) 0 5 "the notes" (fun t => t) .err
    (by decide) rfl (by decide)

/-- Witness for C7 at a concrete store with question 1. -/
theorem claim7_witness :
    (handleAnswersRequest (fun _ => none) storeQuestionOnly 0 1 "my answer" true .err).status = 200 ∧
    (handleAnswersRequest (fun _ => none) storeQuestionOnly 0 1 "my answer" true .err).aiCalled = false ∧
    ∃ a, (handleAnswersRequest (fun _ => none) storeQuestionOnly 0 1 "my answer" true .err).body
        = .saved a ∧
      a.evaluation = ⟨0, "Pending evaluation at test completion", [], []⟩ ∧
      a.userAnswer = "my answer" ∧
      getQuestionAnswer
        (handleAnswersRequest (fun _ => none) storeQuestionOnly 0 1 "my answer" true .err).store 1
        = some a :=
  claim7_defer_no_ai_call (fun _ => none) storeQuestionOnly 0 1 "my answer" .err
    (by constructor <;> simp [storeQuestionOnly])
    (by decide) (by decide)

/-- Counterexample for C3 as stated: on the parsed array [goodRaw, badRaw]
the single malformed entry ABORTS the whole batch: the handler answers 500
and returns no questions, instead of dropping the malformed entry and
returning the well-formed one. -/
theorem claim3_counterexample :
    (generateQuestionsPersist 1 0 storeEmpty [goodRaw, badRaw]).1 = 500 ∧
    (generateQuestionsPersist 1 0 storeEmpty [goodRaw, badRaw]).2.1 = none := by
  decide

/-- C3 amended: a malformed entry in the parsed array is not dropped:
insertQuestionSchema.parse throws inside the save loop, the catch answers
500 with nothing returned, entries before the first malformed one are
already persisted to storage (but not returned) and later entries are not
persisted; only when every entry is well formed does the handler answer
200 with all entries persisted and returned. -/
theorem claim3_malformed_entry_aborts (sessionId now : Nat) (s : Store)
    (pre post : List RawQuestion) (bad : RawQuestion)
    (hpre : ∀ r ∈ pre, (insertQuestionSchemaParse sessionId r).isSome)
    (hbad : insertQuestionSchemaParse sessionId bad = none)
    (hpost : ∀ r ∈ post, (insertQuestionSchemaParse sessionId r).isSome) :
    (generateQuestionsPersist sessionId now s (pre ++ bad :: post)).1 = 500 ∧
    (generateQuestionsPersist sessionId now s (pre ++ bad :: post)).2.1 = none ∧
    (generateQuestionsPersist sessionId now s (pre ++ bad :: post)).2.2.questions.length
      = s.questions.length + pre.length ∧
    (generateQuestionsPersist sessionId now s (pre ++ post)).1 = 200 ∧
    (generateQuestionsPersist sessionId now s (pre ++ post)).2.2.questions.length
      = s.questions.length + (pre ++ post).length := by
  have hinv := @saveGQ_invalid sessionId now pre post bad s hpre hbad
  have hall : ∀ r ∈ pre ++ post, (insertQuestionSchemaParse sessionId r).isSome := by
    intro r hr
    rcases List.mem_append.mp hr with hr | hr
    · exact hpre r hr
    · exact hpost r hr
  have hvalid := @saveGQ_all_valid sessionId now (pre ++ post) s hall
  obtain ⟨saved, hsaved⟩ := Option.isSome_iff_exists.mp hvalid.1
  unfold generateQuestionsPersist
  cases hrec : saveGeneratedQuestions sessionId now s (pre ++ bad :: post) with
  | mk s1 o1 =>
      rw [hrec] at hinv
      simp only at hinv
      cases hrec2 : saveGeneratedQuestions sessionId now s (pre ++ post) with
      | mk s2 o2 =>
          rw [hrec2] at hvalid hsaved
          simp only at hvalid hsaved
          rw [hinv.1, hsaved]
          refine ⟨rfl, rfl, ?_, rfl, ?_⟩
          · simpa using hinv.2
          · simpa using hvalid.2

/-- Witness for C3 amended: one good entry followed by one malformed entry
on the empty store answers 500 with nothing persisted beyond the good
entry and nothing returned; the good entry alone answers 200. -/
theorem claim3_witness :
    (generateQuestionsPersist 1 0 storeEmpty ([goodRaw] ++ badRaw :: [])).1 = 500 ∧
    (generateQuestionsPersist 1 0 storeEmpty ([goodRaw] ++ badRaw :: [])).2.1 = none ∧
    (generateQuestionsPersist 1 0 storeEmpty ([goodRaw] ++ badRaw :: [])).2.2.questions.length
      = storeEmpty.questions.length + 1 ∧
    (generateQuestionsPersist 1 0 storeEmpty ([goodRaw] ++ [])).1 = 200 ∧
    (generateQuestionsPersist 1 0 storeEmpty ([goodRaw] ++ [])).2.2.questions.length
      = storeEmpty.questions.length + 1 := by
  have h := claim3_malformed_entry_aborts 1 0 storeEmpty [goodRaw] [] badRaw
    (by decide) (by decide) (by decide)
  exact ⟨h.1, h.2.1, h.2.2.1, h.2.2.2.1, h.2.2.2.2⟩

/-- Counterexample for C8 as stated: with the AI call rejecting (timeout or
network failure), the async path persists NOTHING: after the 202 response
settles there is no persisted Answer at all for the questionId, refuting
that the persisted Answer then carries a different, non-placeholder
evaluation. -/
theorem claim8_counterexample :
    getQuestionAnswer
      (handleAnswersRequest (fun _ => none) storeQuestionOnly 0 1 "my answer" false .err).store 1
      = none := by
  decide

/-- C8 amended: a submission with deferEvaluation false is immediately
answered 202 with the temporary, non-persisted answer (sentinel id -1,
feedback exactly Evaluating your answer...); afterwards, if the AI call
rejects, nothing is persisted (the failure is only logged), and if it
returns a text, the Answer persisted for the questionId carries the
evaluation parsed from that text (or the fixed 50-score fallback when
parsing fails) - not necessarily different from the placeholder. -/
theorem claim8_fast_path (jp : String → Option EvaluationResult) (s : Store)
    (now qid : Nat) (ua text : String) (q : Question) (ai : AIOutcome)
    (hwf : StoreWF s) (hqid : qid ≠ 0) (hua : ua ≠ "") (hq : getQuestion s qid = some q) :
    (handleAnswersRequest jp s now qid ua false ai).status = 202 ∧
    (handleAnswersRequest jp s now qid ua false ai).body
      = .temp { id := -1, questionId := qid, userAnswer := ua,
                evaluation := ⟨0, "Evaluating your answer...", [], []⟩, createdAt := now } ∧
    (handleAnswersRequest jp s now qid ua false .err).store = s ∧
    ∃ a, getQuestionAnswer (handleAnswersRequest jp s now qid ua false (.ok text)).store qid
        = some a ∧
      a.evaluation = answerComputeEvaluation jp text ∧
      a.userAnswer = ua := by
  have hguard : (qid == 0 || ua == "") = false := by
    simp [hqid, hua]
  have heq : ∀ ai2 : AIOutcome, handleAnswersRequest jp s now qid ua false ai2
      = { status := 202
          body := .temp (tempAnswerOf now qid ua false)
          store := submitAnswerAsync jp s now qid ua ai2
          aiCalled := (getQuestion s qid).isSome } := by
    intro ai2
    unfold handleAnswersRequest
    rw [hguard]
    rfl
  have hstore : submitAnswerAsync jp s now qid ua (.ok text)
      = (createAnswer s now ⟨qid, ua, answerComputeEvaluation jp text, none⟩).2 := by
    unfold submitAnswerAsync
    rw [hq]
    rfl
  have herr : submitAnswerAsync jp s now qid ua .err = s := by
    unfold submitAnswerAsync
    rw [hq]
  refine ⟨by rw [heq ai], by rw [heq ai]; rfl, by rw [heq .err, herr], ?_⟩
  rw [heq (.ok text)]
  show ∃ a, getQuestionAnswer (submitAnswerAsync jp s now qid ua (.ok text)) qid = some a ∧ _
  rw [hstore]
  refine ⟨(createAnswer s now ⟨qid, ua, answerComputeEvaluation jp text, none⟩).1, ?_, ?_, ?_⟩
  · exact getQuestionAnswer_createAnswer_self hwf
  · exact (createAnswer_fst_fields s now ⟨qid, ua, answerComputeEvaluation jp text, none⟩).2
  · exact (createAnswer_fst_fields s now ⟨qid, ua, answerComputeEvaluation jp text, none⟩).1

/-- Witness for C8 amended at a concrete store: 202 with the sentinel
temporary answer, nothing persisted on AI failure, the fallback persisted
when the reply carries no JSON. -/
theorem claim8_witness :
    (handleAnswersRequest (fun _ => none) storeQuestionOnly 0 1 "my answer" false .err).status
      = 202 ∧
    (handleAnswersRequest (fun _ => none) storeQuestionOnly 0 1 "my answer" false .err).body
      = .temp { id := -1, questionId := 1, userAnswer := "my answer",
                evaluation := ⟨0, "Evaluating your answer...", [], []⟩, createdAt := 0 } ∧
    (handleAnswersRequest (fun _ => none) storeQuestionOnly 0 1 "my answer" false .err).store
      = storeQuestionOnly ∧
    ∃ a, getQuestionAnswer
        (handleAnswersRequest (fun _ => none) storeQuestionOnly 0 1 "my answer" false
          (.ok textNoJson)).store 1 = some a ∧
      a.evaluation = answerComputeEvaluation (fun _ => none) textNoJson ∧
      a.userAnswer = "my answer" := by
  have h := claim8_fast_path (fun _ => none) storeQuestionOnly 0 1 "my answer" textNoJson q1 .err
    (by constructor <;> simp [storeQuestionOnly])
    (by decide) (by decide) (by decide)
  exact h

/-- Counterexample for C1 as stated: on a session with one answered
question, a rejected AI call (throw or timeout) is caught at routes.ts
line 580 and answered with 500 and success FALSE - no synthesized neutral
evaluation is substituted for a failing AI call, only for a parse
failure. -/
theorem claim1_counterexample :
    (evaluateAllAnswers (fun _ => none) storeOneAnswered 5 1 .err).1.success = false ∧
    (evaluateAllAnswers (fun _ => none) storeOneAnswered 5 1 .err).1.status = 500 := by
  decide

/-- C1 amended: for a known session, with zero answered questions the
batch endpoint fails 400 with success false on every AI outcome; with at
least one answered question, a rejected AI call is answered 500 with
success false and the store untouched, while any reply TEXT (even one with
no extractable JSON) is answered 200 with success true, and when no JSON
can be extracted the synthesized fallback totalScore lies within [0, 100]
provided every stored correctness score does. -/
theorem claim1_batch_outcomes (jp : String → Option BatchParsed) (s : Store)
    (now sessionId : Nat) (sess : Session) (text : String)
    (hsess : getSession s sessionId = some sess)
    (hjson : jsonObjectMatch text = none)
    (hrange : ∀ qa ∈ getSessionQuestionsWithAnswers s sessionId, ∀ a, qa.answer = some a →
      0 ≤ a.evaluation.correctness ∧ a.evaluation.correctness ≤ 100) :
    (batchGuard s sessionId = true →
      ∀ ai : AIOutcome, (evaluateAllAnswers jp s now sessionId ai).1 = ⟨400, false, none⟩) ∧
    (batchGuard s sessionId = false →
      (evaluateAllAnswers jp s now sessionId .err).1 = ⟨500, false, none⟩ ∧
      (evaluateAllAnswers jp s now sessionId .err).2 = s ∧
      (evaluateAllAnswers jp s now sessionId (.ok text)).1.status = 200 ∧
      (evaluateAllAnswers jp s now sessionId (.ok text)).1.success = true ∧
      ∀ e, (evaluateAllAnswers jp s now sessionId (.ok text)).1.evaluation = some e →
        0 ≤ e.totalScore ∧ e.totalScore ≤ 100) := by
  constructor
  · intro hguard ai
    rw [evalAll_400 jp s now sessionId ai sess hsess hguard]
  · intro hguard
    have herr := evalAll_err jp s now sessionId sess hsess hguard
    have hok := evalAll_ok jp s now sessionId text sess hsess hguard
    refine ⟨by rw [herr], by rw [herr], by rw [hok], by rw [hok], ?_⟩
    intro e he
    rw [hok] at he
    have he2 : some (batchDataOf (batchComputeEvaluation jp sess.topic
        (getSessionQuestionsWithAnswers s sessionId) text)) = some e := he
    injection he2 with he2
    subst he2
    have hcomp : batchComputeEvaluation jp sess.topic
        (getSessionQuestionsWithAnswers s sessionId) text
        = batchFallback sess.topic (getSessionQuestionsWithAnswers s sessionId) := by
      unfold batchComputeEvaluation
      rw [hjson]
    rw [hcomp]
    exact @batchFallback_totalScore_bound sess.topic (getSessionQuestionsWithAnswers s sessionId)
      hrange

/-- Witness for C1 amended at a concrete store with one answered question:
a rejected AI call gives 500 and success false; a JSON-free reply gives
200, success true, and a fallback totalScore inside [0, 100]. -/
theorem claim1_witness :
    (evaluateAllAnswers (fun _ => none) storeOneAnswered 5 1 .err).1 = ⟨500, false, none⟩ ∧
    (evaluateAllAnswers (fun _ => none) storeOneAnswered 5 1 .err).2 = storeOneAnswered ∧
    (evaluateAllAnswers (fun _ => none) storeOneAnswered 5 1 (.ok textNoJson)).1.status = 200 ∧
    (evaluateAllAnswers (fun _ => none) storeOneAnswered 5 1 (.ok textNoJson)).1.success = true ∧
    ∃ e, (evaluateAllAnswers (fun _ => none) storeOneAnswered 5 1
        (.ok textNoJson)).1.evaluation = some e ∧
      0 ≤ e.totalScore ∧ e.totalScore ≤ 100 := by
  have hrange : ∀ qa ∈ getSessionQuestionsWithAnswers storeOneAnswered 1, ∀ a,
      qa.answer = some a →
      0 ≤ a.evaluation.correctness ∧ a.evaluation.correctness ≤ 100 := by
    have haqs : getSessionQuestionsWithAnswers storeOneAnswered 1 = [⟨q1, some a1⟩] := by
      decide
    intro qa hqa a ha
    rw [haqs, List.mem_singleton] at hqa
    subst hqa
    have ha2 : some a1 = some a := ha
    injection ha2 with ha2
    subst ha2
    decide
  have h := claim1_batch_outcomes (fun _ => none) storeOneAnswered 5 1 sess1 textNoJson
    (by decide) (by decide) hrange
  have h2 := h.2 (by decide)
  obtain ⟨e, he⟩ := Option.isSome_iff_exists.mp
    (show (evaluateAllAnswers (fun _ => none) storeOneAnswered 5 1
      (.ok textNoJson)).1.evaluation.isSome by decide)
  exact ⟨h2.1, h2.2.1, h2.2.2.1, h2.2.2.2.1, e, he, h2.2.2.2.2 e he⟩

/-- Counterexample for C2 as stated: on a session with TWO answered
questions and a successfully parsed batch reply, the second answered
question keeps its old evaluation untouched (no per-question update is
persisted for it), and NO answer in the store carries the
BatchEvaluationResult, because insertAnswerSchema.parse strips the
batchEvaluation key before storage. -/
theorem claim2_counterexample :
    (evaluateAllAnswers (fun _ => some ⟨77, ["s"], ["w"], ["r"]⟩) storeTwoAnswered 9 1
      (.ok textWithBraces)).1.success = true ∧
    getQuestionAnswer (evaluateAllAnswers (fun _ => some ⟨77, ["s"], ["w"], ["r"]⟩)
      storeTwoAnswered 9 1 (.ok textWithBraces)).2 2 = some a2 ∧
    ((evaluateAllAnswers (fun _ => some ⟨77, ["s"], ["w"], ["r"]⟩) storeTwoAnswered 9 1
      (.ok textWithBraces)).2.answers.all (fun a => a.batchEvaluation.isNone)) = true := by
  decide

/-- C2 amended: when batch evaluation succeeds, only the FIRST question of
the session gets its Answer updated - overwritten with the shared
totalScore as correctness and the stand-in feedback - and because
insertAnswerSchema.parse strips the unrecognised batchEvaluation key, the
stored record keeps its previous batchEvaluation (so the
BatchEvaluationResult is not attached to any Answer); the answers of all
other questions are untouched; model-supplied individual scores are never
used. -/
theorem claim2_batch_updates_first_only (jp : String → Option BatchParsed) (s : Store)
    (now sessionId : Nat) (sess : Session) (text : String)
    (qa0 : QuestionWithAnswer) (rest : List QuestionWithAnswer) (ans0 : Answer)
    (hwf : StoreWF s)
    (hsess : getSession s sessionId = some sess)
    (haqs : getSessionQuestionsWithAnswers s sessionId = qa0 :: rest)
    (hans : qa0.answer = some ans0) :
    (evaluateAllAnswers jp s now sessionId (.ok text)).1.success = true ∧
    (∃ a, getQuestionAnswer (evaluateAllAnswers jp s now sessionId (.ok text)).2 qa0.question.id
        = some a ∧
      a.evaluation.correctness = (batchComputeEvaluation jp sess.topic
        (getSessionQuestionsWithAnswers s sessionId) text).totalScore ∧
      a.evaluation.feedback = "See overall evaluation for details" ∧
      a.userAnswer = ans0.userAnswer ∧
      a.batchEvaluation = ans0.batchEvaluation) ∧
    ∀ qid, qid ≠ qa0.question.id →
      getQuestionAnswer (evaluateAllAnswers jp s now sessionId (.ok text)).2 qid
        = getQuestionAnswer s qid := by
  have hqa0mem : qa0 ∈ getSessionQuestionsWithAnswers s sessionId := by
    rw [haqs]
    exact List.mem_cons_self _ _
  have hlook0 : getQuestionAnswer s qa0.question.id = some ans0 := by
    rw [← mem_getSessionQuestionsWithAnswers hqa0mem]
    exact hans
  have hguard : batchGuard s sessionId = false := by
    show ((getSessionQuestionsWithAnswers s sessionId).length == 0
      || (getSessionQuestionsWithAnswers s sessionId).all (fun qa => qa.answer.isNone)) = false
    rw [haqs]
    simp [hans]
  have hok := evalAll_ok jp s now sessionId text sess hsess hguard
  rw [haqs] at hok
  rw [haqs]
  have hpf := batchPersistFirst_cons_some s now qa0 rest
    (batchComputeEvaluation jp sess.topic (qa0 :: rest) text) ans0 hans
  rw [hpf] at hok
  have hupd := @createAnswer_fst_update s now
    ⟨qa0.question.id, ans0.userAnswer,
      ⟨(batchComputeEvaluation jp sess.topic (qa0 :: rest) text).totalScore,
       "See overall evaluation for details",
       (batchComputeEvaluation jp sess.topic (qa0 :: rest) text).strengths,
       (batchComputeEvaluation jp sess.topic (qa0 :: rest) text).weaknesses⟩,
      none⟩ ans0 hlook0
  have hfields :
      (createAnswer s now
        ⟨qa0.question.id, ans0.userAnswer,
          ⟨(batchComputeEvaluation jp sess.topic (qa0 :: rest) text).totalScore,
           "See overall evaluation for details",
           (batchComputeEvaluation jp sess.topic (qa0 :: rest) text).strengths,
           (batchComputeEvaluation jp sess.topic (qa0 :: rest) text).weaknesses⟩,
          none⟩).1.evaluation.correctness
        = (batchComputeEvaluation jp sess.topic (qa0 :: rest) text).totalScore ∧
      (createAnswer s now
        ⟨qa0.question.id, ans0.userAnswer,
          ⟨(batchComputeEvaluation jp sess.topic (qa0 :: rest) text).totalScore,
           "See overall evaluation for details",
           (batchComputeEvaluation jp sess.topic (qa0 :: rest) text).strengths,
           (batchComputeEvaluation jp sess.topic (qa0 :: rest) text).weaknesses⟩,
          none⟩).1.evaluation.feedback = "See overall evaluation for details" ∧
      (createAnswer s now
        ⟨qa0.question.id, ans0.userAnswer,
          ⟨(batchComputeEvaluation jp sess.topic (qa0 :: rest) text).totalScore,
           "See overall evaluation for details",
           (batchComputeEvaluation jp sess.topic (qa0 :: rest) text).strengths,
           (batchComputeEvaluation jp sess.topic (qa0 :: rest) text).weaknesses⟩,
          none⟩).1.userAnswer = ans0.userAnswer ∧
      (createAnswer s now
        ⟨qa0.question.id, ans0.userAnswer,
          ⟨(batchComputeEvaluation jp sess.topic (qa0 :: rest) text).totalScore,
           "See overall evaluation for details",
           (batchComputeEvaluation jp sess.topic (qa0 :: rest) text).strengths,
           (batchComputeEvaluation jp sess.topic (qa0 :: rest) text).weaknesses⟩,
          none⟩).1.batchEvaluation = ans0.batchEvaluation := by
    rw [hupd]
    exact ⟨rfl, rfl, rfl, rfl⟩
  refine ⟨by rw [hok], ?_, ?_⟩
  · refine ⟨(createAnswer s now
        ⟨qa0.question.id, ans0.userAnswer,
          ⟨(batchComputeEvaluation jp sess.topic (qa0 :: rest) text).totalScore,
           "See overall evaluation for details",
           (batchComputeEvaluation jp sess.topic (qa0 :: rest) text).strengths,
           (batchComputeEvaluation jp sess.topic (qa0 :: rest) text).weaknesses⟩,
          none⟩).1, ?_, hfields.1, hfields.2.1, hfields.2.2.1, hfields.2.2.2⟩
    rw [hok]
    exact getQuestionAnswer_createAnswer_self hwf
  · intro qid hqid
    rw [hok]
    exact getQuestionAnswer_createAnswer_ne hwf hqid

/-- Witness for C2 amended on a concrete store with two answered questions
and a parsed batch score of 77. -/
theorem claim2_witness :
    (evaluateAllAnswers (fun _ => some ⟨77, ["s"], ["w"], ["r"]⟩) storeTwoAnswered 9 1
      (.ok textWithBraces)).1.success = true ∧
    (∃ a, getQuestionAnswer (evaluateAllAnswers (fun _ => some ⟨77, ["s"], ["w"], ["r"]⟩)
        storeTwoAnswered 9 1 (.ok textWithBraces)).2 1 = some a ∧
      a.evaluation.correctness = 77 ∧
      a.evaluation.feedback = "See overall evaluation for details" ∧
      a.userAnswer = a1.userAnswer ∧
      a.batchEvaluation = a1.batchEvaluation) ∧
    getQuestionAnswer (evaluateAllAnswers (fun _ => some ⟨77, ["s"], ["w"], ["r"]⟩)
      storeTwoAnswered 9 1 (.ok textWithBraces)).2 2 = getQuestionAnswer storeTwoAnswered 2 := by
  have h := claim2_batch_updates_first_only (fun _ => some ⟨77, ["s"], ["w"], ["r"]⟩)
    storeTwoAnswered 9 1 sess1 textWithBraces ⟨q1, some a1⟩ [⟨q2, some a2⟩] a1
    (by constructor <;> decide) (by decide) (by decide) rfl
  have hts : (batchComputeEvaluation (fun _ => some ⟨77, ["s"], ["w"], ["r"]⟩) sess1.topic
      (getSessionQuestionsWithAnswers storeTwoAnswered 1) textWithBraces).totalScore = 77 := by
    decide
  obtain ⟨hsucc, ⟨a, hlook, hcorr, hfb, hua, hbe⟩, hothers⟩ := h
  exact ⟨hsucc, ⟨a, hlook, by rw [hcorr, hts], hfb, hua, hbe⟩, hothers 2 (by decide)⟩

end AILearn
